import Mathlib

/-!
Verification of `bin/scrape_software_versions.py` from the nanorna-bam
repository.

The script builds an ordered registry of tool versions: it initializes an
`OrderedDict` mapping four fixed labels to a sentinel HTML string, probes one
named file per label with a regular expression, marks unopenable files with
the Python value `False`, filters falsy entries out, and finally renders the
registry twice (a YAML-ish report on stdout and a tab-separated file).

The embedding models the filesystem as a function `String → Option String`
(`none` = the `open` call raises `IOError`); each regex used by the script has
the shape "literal prefix followed by a single greedy `(\S+)` capture group",
which is embedded as the structure `Pattern` with `re.search` semantics
implemented directly (leftmost match, maximal non-whitespace run).
-/

/-- A Python value stored in the `results` dict: either a string or the
literal `False` used to mark a failed open. -/
inductive Value where
  | str (s : String)
  | falseMark
  deriving DecidableEq, Repr

/-- Python truthiness of a stored value: `False` is falsy, a string is falsy
iff it is empty. -/
def Value.isTruthy : Value → Bool
  | .str s => !(s == "")
  | .falseMark => false

/-- How Python's `"{}".format` renders a stored value. -/
def Value.render : Value → String
  | .str s => s
  | .falseMark => "False"

/-- Characters matched by the regex class `\s` (ASCII whitespace, as in
Python's `re`). -/
def isSpaceChar (c : Char) : Bool :=
  c == ' ' || c == '\t' || c == '\n' || c == '\r' || c == '\x0b' || c == '\x0c'

/-- The shape of every regex in the script: a literal prefix followed by one
greedy capture group `(\S+)`.  `lit = ""` embeds the bare pattern `(\S+)`;
`lit = "featureCounts v"` embeds `featureCounts v(\S+)`. -/
structure Pattern where
  lit : String
  deriving DecidableEq, Repr

/-- Try to match `lit ++ (\S+)` at the head of `cs`: the literal must be a
prefix and at least one non-whitespace character must follow; the capture is
the maximal non-whitespace run (greedy `\S+` with nothing after it). -/
def matchCapture (lit cs : List Char) : Option (List Char) :=
  if lit.isPrefixOf cs then
    let cap := (cs.drop lit.length).takeWhile (fun c => !isSpaceChar c)
    if cap.isEmpty then none else some cap
  else none

/-- `re.search` semantics: scan left to right, return the capture of the
leftmost position where the pattern matches. -/
def searchChars (lit : List Char) : List Char → Option (List Char)
  | [] => matchCapture lit []
  | c :: cs =>
    match matchCapture lit (c :: cs) with
    | some cap => some cap
    | none => searchChars lit cs

/-- `re.search(pattern, text)`, returning `match.group(1)` when a match is
found. -/
def Pattern.search (p : Pattern) (text : String) : Option String :=
  (searchChars p.lit.data text.data).map List.asString

/-- The sentinel initial value.  The Python literal
`'<span style="color:#999999;\">N/A</span>'` uses the escape `\"`, so the
stored string contains a quote and no backslash. -/
def NA : String := "<span style=\"color:#999999;\">N/A</span>"

/-- The `regexes` table of the script: label, file name, pattern. -/
def regexes : List (String × String × Pattern) :=
  [("nf-core/nanornabam", "pipeline.version", ⟨""⟩),
   ("Nextflow", "nextflow.version", ⟨""⟩),
   ("StringTie2", "stringtie.version", ⟨""⟩),
   ("FeatureCounts", "featureCounts.version", ⟨"featureCounts v"⟩)]

/-- The `results` OrderedDict right after initialization: every label mapped
to the sentinel, in declared order. -/
def initResults : List (String × Value) :=
  [("nf-core/nanornabam", .str NA), ("Nextflow", .str NA),
   ("StringTie2", .str NA), ("FeatureCounts", .str NA)]

/-- `results[k] = v` on an OrderedDict: update in place when the key exists
(keeping its position), append otherwise. -/
def setKey : List (String × Value) → String → Value → List (String × Value)
  | [], k, v => [(k, v)]
  | (k', v') :: rest, k, v =>
    if k' = k then (k, v) :: rest else (k', v') :: setKey rest k v

/-- One iteration of the collection loop for the triple `(k, f, p)`:
`open` failing (modelled by `fs f = none`) stores `False`; a successful read
stores `"v" ++ group(1)` when the pattern matches and leaves the dict
untouched otherwise. -/
def probeStep (fs : String → Option String) (m : List (String × Value))
    (e : String × String × Pattern) : List (String × Value) :=
  match fs e.2.1 with
  | none => setKey m e.1 .falseMark
  | some text =>
    match e.2.2.search text with
    | some cap => setKey m e.1 (.str ("v" ++ cap))
    | none => m

/-- The whole collection loop: fold `probeStep` over the regex table. -/
def collectAll (fs : String → Option String) : List (String × Value) :=
  regexes.foldl (probeStep fs) initResults

/-- The post-probe filter: `for k in list(results): if not results[k]:
del(results[k])` keeps exactly the truthy entries. -/
def finalResults (fs : String → Option String) : List (String × Value) :=
  (collectAll fs).filter (fun q => q.2.isTruthy)

/-- The value a single probe leaves for its label, given the label's initial
value `old`. -/
def probeVal (fs : String → Option String) (f : String) (p : Pattern)
    (old : Value) : Value :=
  match fs f with
  | none => .falseMark
  | some text =>
    match p.search text with
    | some cap => .str ("v" ++ cap)
    | none => old

-- Output artifact 2: the tab-separated file.

/-- One row of `software_versions.csv`: `label<TAB>value<NEWLINE>`. -/
def csvRow (k v : String) : String := k ++ "\t" ++ v ++ "\n"

/-- The full content written to `software_versions.csv` by the write loop,
accumulated exactly as the loop of `f.write` calls does. -/
def csvFileContent (fs : String → Option String) : String :=
  (finalResults fs).foldl (fun acc q => acc ++ csvRow q.1 q.2.render) ""

/-- The list of lines (without trailing newline) of the csv artifact, one per
surviving entry. -/
def csvLines (fs : String → Option String) : List String :=
  (finalResults fs).map (fun q => q.1 ++ "\t" ++ q.2.render)

-- Output artifact 1: the report printed to stdout.

/-- The literal triple-quoted header passed to the first `print` call (the
string itself; `print` appends one more newline). -/
def reportHeader : String :=
  "\nid: 'software_versions'\nsection_name: 'nf-core/nanornabam Software Versions'\nsection_href: 'https://github.com/nf-core/nanornabam'\nplot_type: 'html'\ndescription: 'are collected at run time from the software output.'\ndata: |\n    <dl class=\"dl-horizontal\">\n"

/-- One definition-list item printed for a registry entry. -/
def reportItem (k v : String) : String :=
  "        <dt>" ++ k ++ "</dt><dd><samp>" ++ v ++ "</samp></dd>"

/-- Everything the script prints to stdout: header print, one print per
surviving entry, closing `</dl>` print; each `print` appends a newline. -/
def stdoutContent (fs : String → Option String) : String :=
  ((finalResults fs).foldl
      (fun acc q => acc ++ (reportItem q.1 q.2.render ++ "\n"))
      (reportHeader ++ "\n"))
    ++ "    </dl>\n"

/-- The report items in order, one per surviving entry. -/
def reportItems (fs : String → Option String) : List String :=
  (finalResults fs).map (fun q => reportItem q.1 q.2.render)

-- Exception-aware semantics of the collection loop (for the failure-policy
-- claim): the body of the `try` can raise `IOError` at the `open` call, and
-- the `except IOError` clause catches exactly that name.

/-- `open(f).read()` in the exception-aware model: raises `IOError` when the
file cannot be opened. -/
def openRead (fs : String → Option String) (f : String) :
    Except String String :=
  match fs f with
  | none => .error "IOError"
  | some text => .ok text

/-- One iteration of the collection loop with the `try`/`except IOError`
modelled explicitly: an `IOError` from the body is caught and records
`False`; any other exception name would propagate. -/
def probeStepTry (fs : String → Option String) (m : List (String × Value))
    (e : String × String × Pattern) : Except String (List (String × Value)) :=
  match
    (do
      let text ← openRead fs e.2.1
      pure (match e.2.2.search text with
            | some cap => setKey m e.1 (.str ("v" ++ cap))
            | none => m) : Except String (List (String × Value)))
  with
  | .ok m' => .ok m'
  | .error exn =>
    if exn = "IOError" then .ok (setKey m e.1 .falseMark) else .error exn

/-- The whole collection loop in the exception-aware model. -/
def collectTry (fs : String → Option String) :
    Except String (List (String × Value)) :=
  regexes.foldlM (probeStepTry fs) initResults

-- Sanity checks of the embedding on concrete data.

example : (Pattern.mk "featureCounts v").search "featureCounts v2.0.1 ..." =
    some "2.0.1" := by decide

example : (Pattern.mk "").search "21.04.0.5552" = some "21.04.0.5552" := by
  decide

example : (Pattern.mk "").search "  \n " = none := by decide

example : (Pattern.mk "featureCounts v").search "no version here" = none := by
  decide

-- Helper lemmas about the ordered-dict operations.

theorem lookup_setKey_ne (m : List (String × Value)) (k k' : String) (v : Value)
    (hne : k' ≠ k) : List.lookup k' (setKey m k v) = List.lookup k' m := by
  induction m with
  | nil => simp [setKey, List.lookup, beq_eq_false_iff_ne.mpr hne]
  | cons q rest ih =>
    obtain ⟨k0, v0⟩ := q
    by_cases h : k0 = k
    · subst h
      simp [setKey, List.lookup, beq_eq_false_iff_ne.mpr hne]
    · simp [setKey, h, List.lookup]
      by_cases h' : k' = k0
      · simp [h', List.lookup]
      · simp [beq_eq_false_iff_ne.mpr h', ih]

theorem setKey_of_lookup_eq (m : List (String × Value)) (k : String) (v : Value)
    (h : List.lookup k m = some v) : setKey m k v = m := by
  induction m with
  | nil => simp [List.lookup] at h
  | cons q rest ih =>
    obtain ⟨k0, v0⟩ := q
    by_cases hk : k0 = k
    · subst hk
      simp [List.lookup] at h
      simp [setKey, h]
    · have : (k == k0) = false := beq_eq_false_iff_ne.mpr (fun he => hk he.symm)
      simp [List.lookup, this] at h
      simp [setKey, hk, ih h]

theorem probeStep_eq_setKey (fs : String → Option String)
    (m : List (String × Value)) (e : String × String × Pattern) (old : Value)
    (h : List.lookup e.1 m = some old) :
    probeStep fs m e = setKey m e.1 (probeVal fs e.2.1 e.2.2 old) := by
  unfold probeStep probeVal
  cases fs e.2.1 with
  | none => rfl
  | some t =>
    show (match e.2.2.search t with
          | some cap => setKey m e.1 (Value.str ("v" ++ cap))
          | none => m) =
        setKey m e.1 (match e.2.2.search t with
          | some cap => Value.str ("v" ++ cap)
          | none => old)
    cases e.2.2.search t with
    | some cap => rfl
    | none => exact (setKey_of_lookup_eq m e.1 old h).symm

/-- The collection loop in closed form: each label's entry holds the result of
its own probe, in declared order. -/
theorem collectAll_eq (fs : String → Option String) :
    collectAll fs =
      [("nf-core/nanornabam", probeVal fs "pipeline.version" ⟨""⟩ (.str NA)),
       ("Nextflow", probeVal fs "nextflow.version" ⟨""⟩ (.str NA)),
       ("StringTie2", probeVal fs "stringtie.version" ⟨""⟩ (.str NA)),
       ("FeatureCounts",
        probeVal fs "featureCounts.version" ⟨"featureCounts v"⟩ (.str NA))] := by
  have s1 : probeStep fs initResults
      ("nf-core/nanornabam", "pipeline.version", ⟨""⟩) =
      [("nf-core/nanornabam", probeVal fs "pipeline.version" ⟨""⟩ (.str NA)),
       ("Nextflow", .str NA), ("StringTie2", .str NA),
       ("FeatureCounts", .str NA)] := by
    rw [probeStep_eq_setKey fs initResults
      ("nf-core/nanornabam", "pipeline.version", ⟨""⟩) (.str NA) rfl]
    rfl
  have s2 : probeStep fs
      [("nf-core/nanornabam", probeVal fs "pipeline.version" ⟨""⟩ (.str NA)),
       ("Nextflow", .str NA), ("StringTie2", .str NA),
       ("FeatureCounts", .str NA)]
      ("Nextflow", "nextflow.version", ⟨""⟩) =
      [("nf-core/nanornabam", probeVal fs "pipeline.version" ⟨""⟩ (.str NA)),
       ("Nextflow", probeVal fs "nextflow.version" ⟨""⟩ (.str NA)),
       ("StringTie2", .str NA), ("FeatureCounts", .str NA)] := by
    rw [probeStep_eq_setKey fs
      [("nf-core/nanornabam", probeVal fs "pipeline.version" ⟨""⟩ (.str NA)),
       ("Nextflow", .str NA), ("StringTie2", .str NA),
       ("FeatureCounts", .str NA)]
      ("Nextflow", "nextflow.version", ⟨""⟩) (.str NA) rfl]
    rfl
  have s3 : probeStep fs
      [("nf-core/nanornabam", probeVal fs "pipeline.version" ⟨""⟩ (.str NA)),
       ("Nextflow", probeVal fs "nextflow.version" ⟨""⟩ (.str NA)),
       ("StringTie2", .str NA), ("FeatureCounts", .str NA)]
      ("StringTie2", "stringtie.version", ⟨""⟩) =
      [("nf-core/nanornabam", probeVal fs "pipeline.version" ⟨""⟩ (.str NA)),
       ("Nextflow", probeVal fs "nextflow.version" ⟨""⟩ (.str NA)),
       ("StringTie2", probeVal fs "stringtie.version" ⟨""⟩ (.str NA)),
       ("FeatureCounts", .str NA)] := by
    rw [probeStep_eq_setKey fs
      [("nf-core/nanornabam", probeVal fs "pipeline.version" ⟨""⟩ (.str NA)),
       ("Nextflow", probeVal fs "nextflow.version" ⟨""⟩ (.str NA)),
       ("StringTie2", .str NA), ("FeatureCounts", .str NA)]
      ("StringTie2", "stringtie.version", ⟨""⟩) (.str NA) rfl]
    rfl
  have s4 : probeStep fs
      [("nf-core/nanornabam", probeVal fs "pipeline.version" ⟨""⟩ (.str NA)),
       ("Nextflow", probeVal fs "nextflow.version" ⟨""⟩ (.str NA)),
       ("StringTie2", probeVal fs "stringtie.version" ⟨""⟩ (.str NA)),
       ("FeatureCounts", .str NA)]
      ("FeatureCounts", "featureCounts.version", ⟨"featureCounts v"⟩) =
      [("nf-core/nanornabam", probeVal fs "pipeline.version" ⟨""⟩ (.str NA)),
       ("Nextflow", probeVal fs "nextflow.version" ⟨""⟩ (.str NA)),
       ("StringTie2", probeVal fs "stringtie.version" ⟨""⟩ (.str NA)),
       ("FeatureCounts",
        probeVal fs "featureCounts.version" ⟨"featureCounts v"⟩ (.str NA))] := by
    rw [probeStep_eq_setKey fs
      [("nf-core/nanornabam", probeVal fs "pipeline.version" ⟨""⟩ (.str NA)),
       ("Nextflow", probeVal fs "nextflow.version" ⟨""⟩ (.str NA)),
       ("StringTie2", probeVal fs "stringtie.version" ⟨""⟩ (.str NA)),
       ("FeatureCounts", .str NA)]
      ("FeatureCounts", "featureCounts.version", ⟨"featureCounts v"⟩)
      (.str NA) rfl]
    rfl
  show probeStep fs (probeStep fs (probeStep fs (probeStep fs initResults
      ("nf-core/nanornabam", "pipeline.version", ⟨""⟩))
      ("Nextflow", "nextflow.version", ⟨""⟩))
      ("StringTie2", "stringtie.version", ⟨""⟩))
      ("FeatureCounts", "featureCounts.version", ⟨"featureCounts v"⟩) = _
  rw [s1, s2, s3, s4]

-- Truthiness of the values the probe can produce.

theorem NA_truthy : (Value.str NA).isTruthy = true := by decide

theorem vstr_truthy (s : String) : (Value.str ("v" ++ s)).isTruthy = true := by
  have hne : ("v" ++ s) ≠ "" := by
    intro h'
    have := congrArg String.length h'
    simp [String.length_append] at this
    exact absurd this.1 (by decide)
  simp only [Value.isTruthy, Bool.not_eq_true', beq_eq_false_iff_ne]
  exact hne

/-- An entry survives the falsy filter exactly when its file opened: the
sentinel and every `"v..."` value are truthy, `False` is not. -/
theorem probeVal_truthy_iff (fs : String → Option String) (f : String)
    (p : Pattern) :
    (probeVal fs f p (.str NA)).isTruthy = (fs f).isSome := by
  unfold probeVal
  cases fs f with
  | none => rfl
  | some t =>
    rcases h : p.search t with _ | cap <;> simp [h, vstr_truthy, NA_truthy]

-- Lookup in the filtered registry.

theorem lookup_filter_none (k : String) (l : List (String × Value))
    (h : ∀ q ∈ l, q.1 = k → q.2.isTruthy = false) :
    List.lookup k (l.filter fun q => q.2.isTruthy) = none := by
  induction l with
  | nil => rfl
  | cons q rest ih =>
    by_cases hq : q.2.isTruthy
    · have hk : q.1 ≠ k := fun he => by
        have := h q (List.mem_cons_self q rest) he
        rw [this] at hq
        exact Bool.noConfusion hq
      have hbeq : (k == q.1) = false :=
        beq_eq_false_iff_ne.mpr (fun he => hk he.symm)
      simp only [List.filter_cons, hq, if_true, List.lookup, hbeq]
      exact ih (fun r hr => h r (List.mem_cons_of_mem q hr))
    · simp only [List.filter_cons, Bool.not_eq_true] at hq ⊢
      rw [hq]
      simp only [Bool.false_eq_true, if_false]
      exact ih (fun r hr => h r (List.mem_cons_of_mem q hr))

theorem lookup_filter_some (k : String) (v : Value)
    (l : List (String × Value)) (hv : v.isTruthy = true)
    (hmem : (k, v) ∈ l) (huniq : ∀ q ∈ l, q.1 = k → q.2 = v) :
    List.lookup k (l.filter fun q => q.2.isTruthy) = some v := by
  induction l with
  | nil => exact absurd hmem (List.not_mem_nil _)
  | cons q rest ih =>
    by_cases hk : q.1 = k
    · have hqv : q.2 = v := huniq q (List.mem_cons_self q rest) hk
      have hq : q.2.isTruthy = true := hqv ▸ hv
      simp only [List.filter_cons, hq, if_true, List.lookup,
        beq_iff_eq.mpr hk.symm]
      rw [hqv]
    · have hmem' : (k, v) ∈ rest := by
        rcases List.mem_cons.mp hmem with he | hm
        · exact absurd (congrArg Prod.fst he).symm hk
        · exact hm
      have ih' := ih hmem' (fun r hr => huniq r (List.mem_cons_of_mem q hr))
      by_cases hq : q.2.isTruthy
      · have hbeq : (k == q.1) = false :=
          beq_eq_false_iff_ne.mpr (fun he => hk he.symm)
        simp only [List.filter_cons, hq, if_true, List.lookup, hbeq]
        exact ih'
      · simp only [Bool.not_eq_true] at hq
        simp only [List.filter_cons, hq, Bool.false_eq_true, if_false]
        exact ih'

-- Concatenation of the per-entry output chunks.

/-- Concatenation of a list of strings (the chunks written by a loop of
`write`/`print` calls). -/
def strConcat : List String → String
  | [] => ""
  | s :: rest => s ++ strConcat rest

theorem foldl_append_eq_strConcat (g : String × Value → String) :
    ∀ (rows : List (String × Value)) (acc : String),
      rows.foldl (fun a q => a ++ g q) acc = acc ++ strConcat (rows.map g)
  | [], acc => by simp [strConcat]
  | q :: rest, acc => by
    simp only [List.foldl, List.map, strConcat,
      foldl_append_eq_strConcat g rest (acc ++ g q)]
    rw [String.append_assoc]

-- Injectivity of the rendered rows and items in their label part.

theorem sep_append_inj (c : Char) :
    ∀ (a b x y : List Char), c ∉ a → c ∉ b →
      a ++ c :: x = b ++ c :: y → a = b ∧ x = y
  | [], [], x, y, _, _, h => by
    simp only [List.nil_append, List.cons.injEq] at h
    exact ⟨rfl, h.2⟩
  | [], b0 :: bs, x, y, _, hb, h => by
    simp only [List.nil_append, List.cons_append, List.cons.injEq] at h
    exact absurd (h.1 ▸ List.mem_cons_self b0 bs) hb
  | a0 :: as, [], x, y, ha, _, h => by
    simp only [List.nil_append, List.cons_append, List.cons.injEq] at h
    exact absurd (h.1.symm ▸ List.mem_cons_self a0 as) ha
  | a0 :: as, b0 :: bs, x, y, ha, hb, h => by
    simp only [List.cons_append, List.cons.injEq] at h
    have ih := sep_append_inj c as bs x y
      (fun hm => ha (List.mem_cons_of_mem a0 hm))
      (fun hm => hb (List.mem_cons_of_mem b0 hm)) h.2
    exact ⟨by rw [h.1, ih.1], ih.2⟩

/-- A csv row determines its label, because labels contain no tab. -/
theorem csv_label_eq (a b x y : String) (ha : '\t' ∉ a.data)
    (hb : '\t' ∉ b.data) (h : a ++ "\t" ++ x = b ++ "\t" ++ y) : a = b := by
  have htab : ("\t" : String).data = ['\t'] := by decide
  have h' : a.data ++ '\t' :: x.data = b.data ++ '\t' :: y.data := by
    have hd := congrArg String.data h
    simp only [String.data_append, htab, List.append_assoc,
      List.singleton_append] at hd
    exact hd
  exact String.ext (sep_append_inj '\t' _ _ _ _ ha hb h').1

/-- A report item determines its label, because labels contain no `<`. -/
theorem item_label_eq (a b x y : String) (ha : '<' ∉ a.data)
    (hb : '<' ∉ b.data) (h : reportItem a x = reportItem b y) : a = b := by
  have hmid : ("</dt><dd><samp>" : String).data
      = '<' :: ("/dt><dd><samp>" : String).data := by decide
  have hd := congrArg String.data h
  simp only [reportItem, String.data_append, hmid, List.append_assoc,
    List.cons_append, List.nil_append, List.cons.injEq, true_and] at hd
  exact String.ext (sep_append_inj '<' _ _ _ _ ha hb hd).1

-- The captured group never contains whitespace (it is a `\S+` run).

theorem matchCapture_no_space (lit cs cap : List Char)
    (h : matchCapture lit cs = some cap) :
    ∀ c ∈ cap, isSpaceChar c = false := by
  unfold matchCapture at h
  by_cases hp : lit.isPrefixOf cs
  · simp only [hp, if_true] at h
    by_cases he : ((cs.drop lit.length).takeWhile
        (fun c => !isSpaceChar c)).isEmpty
    · simp [he] at h
    · simp only [he, Bool.false_eq_true, if_false, Option.some.injEq] at h
      subst h
      intro c hc
      simpa using List.mem_takeWhile_imp hc
  · simp [hp] at h

theorem searchChars_no_space (lit : List Char) :
    ∀ (cs cap : List Char), searchChars lit cs = some cap →
      ∀ c ∈ cap, isSpaceChar c = false
  | [], cap, h => matchCapture_no_space lit [] cap h
  | c0 :: cs, cap, h => by
    rcases hm : matchCapture lit (c0 :: cs) with _ | cap'
    · rw [searchChars, hm] at h
      exact searchChars_no_space lit cs cap h
    · rw [searchChars, hm] at h
      injection h with h'
      subst h'
      exact matchCapture_no_space lit (c0 :: cs) cap' hm

theorem search_no_space (p : Pattern) (t cap : String)
    (h : p.search t = some cap) : ∀ c ∈ cap.data, isSpaceChar c = false := by
  unfold Pattern.search at h
  rcases hs : searchChars p.lit.data t.data with _ | capl
  · rw [hs] at h
    cases h
  · rw [hs] at h
    simp only [Option.map_some'] at h
    injection h with h'
    subst h'
    intro c hc
    exact searchChars_no_space p.lit.data t.data capl hs c hc

-- Master lemmas characterizing the final registry.

theorem mem_finalResults (fs : String → Option String) (q : String × Value)
    (h : q ∈ finalResults fs) :
    q.2.isTruthy = true ∧
    (q = ("nf-core/nanornabam",
          probeVal fs "pipeline.version" ⟨""⟩ (.str NA)) ∨
     q = ("Nextflow", probeVal fs "nextflow.version" ⟨""⟩ (.str NA)) ∨
     q = ("StringTie2", probeVal fs "stringtie.version" ⟨""⟩ (.str NA)) ∨
     q = ("FeatureCounts",
          probeVal fs "featureCounts.version" ⟨"featureCounts v"⟩
            (.str NA))) := by
  unfold finalResults at h
  rw [collectAll_eq] at h
  have h' := List.mem_filter.mp h
  refine ⟨h'.2, ?_⟩
  simpa using h'.1

theorem lookup_filter_pos1 (w1 w2 w3 w4 : Value) :
    List.lookup "nf-core/nanornabam" (List.filter (fun q => q.2.isTruthy)
      [("nf-core/nanornabam", w1), ("Nextflow", w2),
       ("StringTie2", w3), ("FeatureCounts", w4)]) =
      if w1.isTruthy then some w1 else none := by
  cases h1 : w1.isTruthy <;> cases h2 : w2.isTruthy <;>
    cases h3 : w3.isTruthy <;> cases h4 : w4.isTruthy <;>
    simp [List.filter, List.lookup, h1, h2, h3, h4]

theorem lookup_filter_pos2 (w1 w2 w3 w4 : Value) :
    List.lookup "Nextflow" (List.filter (fun q => q.2.isTruthy)
      [("nf-core/nanornabam", w1), ("Nextflow", w2),
       ("StringTie2", w3), ("FeatureCounts", w4)]) =
      if w2.isTruthy then some w2 else none := by
  cases h1 : w1.isTruthy <;> cases h2 : w2.isTruthy <;>
    cases h3 : w3.isTruthy <;> cases h4 : w4.isTruthy <;>
    simp [List.filter, List.lookup, h1, h2, h3, h4]

theorem lookup_filter_pos3 (w1 w2 w3 w4 : Value) :
    List.lookup "StringTie2" (List.filter (fun q => q.2.isTruthy)
      [("nf-core/nanornabam", w1), ("Nextflow", w2),
       ("StringTie2", w3), ("FeatureCounts", w4)]) =
      if w3.isTruthy then some w3 else none := by
  cases h1 : w1.isTruthy <;> cases h2 : w2.isTruthy <;>
    cases h3 : w3.isTruthy <;> cases h4 : w4.isTruthy <;>
    simp [List.filter, List.lookup, h1, h2, h3, h4]

theorem lookup_filter_pos4 (w1 w2 w3 w4 : Value) :
    List.lookup "FeatureCounts" (List.filter (fun q => q.2.isTruthy)
      [("nf-core/nanornabam", w1), ("Nextflow", w2),
       ("StringTie2", w3), ("FeatureCounts", w4)]) =
      if w4.isTruthy then some w4 else none := by
  cases h1 : w1.isTruthy <;> cases h2 : w2.isTruthy <;>
    cases h3 : w3.isTruthy <;> cases h4 : w4.isTruthy <;>
    simp [List.filter, List.lookup, h1, h2, h3, h4]

/-- The final registry entry of a declared label is exactly the value of its
own probe when that value is truthy, and missing otherwise. -/
theorem lookup_finalResults (fs : String → Option String) (k f : String)
    (p : Pattern) (hmem : (k, f, p) ∈ regexes) :
    List.lookup k (finalResults fs) =
      if (probeVal fs f p (.str NA)).isTruthy
      then some (probeVal fs f p (.str NA)) else none := by
  simp only [regexes, List.mem_cons, List.not_mem_nil, or_false,
    Prod.mk.injEq] at hmem
  unfold finalResults
  rw [collectAll_eq]
  rcases hmem with ⟨rfl, rfl, rfl⟩ | ⟨rfl, rfl, rfl⟩ | ⟨rfl, rfl, rfl⟩ |
    ⟨rfl, rfl, rfl⟩
  · exact lookup_filter_pos1 _ _ _ _
  · exact lookup_filter_pos2 _ _ _ _
  · exact lookup_filter_pos3 _ _ _ _
  · exact lookup_filter_pos4 _ _ _ _

/-- A truthy probe value of a declared label is an entry of the final
registry. -/
theorem mem_finalResults_of_truthy (fs : String → Option String)
    (k f : String) (p : Pattern) (hmem : (k, f, p) ∈ regexes)
    (htr : (probeVal fs f p (.str NA)).isTruthy = true) :
    (k, probeVal fs f p (.str NA)) ∈ finalResults fs := by
  unfold finalResults
  rw [collectAll_eq]
  refine List.mem_filter.mpr ⟨?_, htr⟩
  simp only [regexes, List.mem_cons, List.not_mem_nil, or_false,
    Prod.mk.injEq] at hmem
  rcases hmem with ⟨rfl, rfl, rfl⟩ | ⟨rfl, rfl, rfl⟩ | ⟨rfl, rfl, rfl⟩ |
    ⟨rfl, rfl, rfl⟩ <;> simp

theorem regex_label_chars (k f : String) (p : Pattern)
    (hmem : (k, f, p) ∈ regexes) : '\t' ∉ k.data ∧ '<' ∉ k.data := by
  simp only [regexes, List.mem_cons, List.not_mem_nil, or_false,
    Prod.mk.injEq] at hmem
  rcases hmem with ⟨rfl, -, -⟩ | ⟨rfl, -, -⟩ | ⟨rfl, -, -⟩ | ⟨rfl, -, -⟩ <;>
    exact ⟨by decide, by decide⟩

theorem finalResults_label_chars (fs : String → Option String)
    (q : String × Value) (hq : q ∈ finalResults fs) :
    '\t' ∉ q.1.data ∧ '<' ∉ q.1.data := by
  obtain ⟨-, hcases⟩ := mem_finalResults fs q hq
  rcases hcases with rfl | rfl | rfl | rfl
  · exact ⟨(by decide : '\t' ∉ ("nf-core/nanornabam" : String).data),
           (by decide : '<' ∉ ("nf-core/nanornabam" : String).data)⟩
  · exact ⟨(by decide : '\t' ∉ ("Nextflow" : String).data),
           (by decide : '<' ∉ ("Nextflow" : String).data)⟩
  · exact ⟨(by decide : '\t' ∉ ("StringTie2" : String).data),
           (by decide : '<' ∉ ("StringTie2" : String).data)⟩
  · exact ⟨(by decide : '\t' ∉ ("FeatureCounts" : String).data),
           (by decide : '<' ∉ ("FeatureCounts" : String).data)⟩

theorem finalResults_no_label_of_absent (fs : String → Option String)
    (k f : String) (p : Pattern) (hmem : (k, f, p) ∈ regexes)
    (habs : fs f = none) : ∀ q ∈ finalResults fs, q.1 ≠ k := by
  intro q hq hkq
  obtain ⟨htr, hcases⟩ := mem_finalResults fs q hq
  have hv : probeVal fs f p (.str NA) = .falseMark := by
    simp [probeVal, habs]
  simp only [regexes, List.mem_cons, List.not_mem_nil, or_false,
    Prod.mk.injEq] at hmem
  rcases hmem with ⟨rfl, rfl, rfl⟩ | ⟨rfl, rfl, rfl⟩ | ⟨rfl, rfl, rfl⟩ |
    ⟨rfl, rfl, rfl⟩ <;>
    rcases hcases with rfl | rfl | rfl | rfl <;> simp_all [Value.isTruthy]

/-- C1: a source triple whose file cannot be opened leaves no entry for its
label in the final registry, hence none in the csv artifact and none in the
report artifact. -/
theorem absent_label_dropped (fs : String → Option String) (k f : String)
    (p : Pattern) (hmem : (k, f, p) ∈ regexes) (habs : fs f = none) :
    List.lookup k (finalResults fs) = none ∧
    (∀ q ∈ finalResults fs, q.1 ≠ k) ∧
    (∀ line ∈ csvLines fs, ∀ v, line ≠ k ++ "\t" ++ v) ∧
    (∀ item ∈ reportItems fs, ∀ v, item ≠ reportItem k v) := by
  have hv : probeVal fs f p (.str NA) = .falseMark := by
    simp [probeVal, habs]
  have h2 := finalResults_no_label_of_absent fs k f p hmem habs
  refine ⟨?_, h2, ?_, ?_⟩
  · rw [lookup_finalResults fs k f p hmem, hv]
    simp [Value.isTruthy]
  · intro line hl v heq
    simp only [csvLines, List.mem_map] at hl
    obtain ⟨q, hq, rfl⟩ := hl
    exact h2 q hq (csv_label_eq q.1 k q.2.render v
      (finalResults_label_chars fs q hq).1 (regex_label_chars k f p hmem).1
      heq)
  · intro item hi v heq
    simp only [reportItems, List.mem_map] at hi
    obtain ⟨q, hq, rfl⟩ := hi
    exact h2 q hq (item_label_eq q.1 k q.2.render v
      (finalResults_label_chars fs q hq).2 (regex_label_chars k f p hmem).2
      heq)

/-- The run in which no source file exists. -/
def fsEmpty : String → Option String := fun _ => none

theorem absent_label_dropped_witness :
    List.lookup "StringTie2" (finalResults fsEmpty) = none :=
  (absent_label_dropped fsEmpty "StringTie2" "stringtie.version" ⟨""⟩
    (by decide) rfl).1

/-- C2: a source triple whose file opens but whose pattern finds no match
keeps its label mapped to the exact initialization sentinel in the final
registry. -/
theorem unmatched_label_keeps_sentinel (fs : String → Option String)
    (k f : String) (p : Pattern) (hmem : (k, f, p) ∈ regexes) (t : String)
    (hopen : fs f = some t) (hnm : p.search t = none) :
    List.lookup k (finalResults fs) = some (Value.str NA) := by
  have hv : probeVal fs f p (.str NA) = .str NA := by
    simp [probeVal, hopen, hnm]
  rw [lookup_finalResults fs k f p hmem, hv]
  simp [NA_truthy]

/-- The run in which only `featureCounts.version` exists, with text the
pattern does not match. -/
def fsFCUnmatched : String → Option String := fun f =>
  if f = "featureCounts.version" then some "no version here" else none

theorem unmatched_label_keeps_sentinel_witness :
    List.lookup "FeatureCounts" (finalResults fsFCUnmatched)
      = some (Value.str NA) :=
  unmatched_label_keeps_sentinel fsFCUnmatched "FeatureCounts"
    "featureCounts.version" ⟨"featureCounts v"⟩ (by decide)
    "no version here" rfl (by decide)

/-- C3: a source triple whose file opens and whose pattern matches maps its
label to `"v"` followed by the first capture group of the first match. -/
theorem matched_label_value (fs : String → Option String) (k f : String)
    (p : Pattern) (hmem : (k, f, p) ∈ regexes) (t cap : String)
    (hopen : fs f = some t) (hm : p.search t = some cap) :
    List.lookup k (finalResults fs) = some (Value.str ("v" ++ cap)) := by
  have hv : probeVal fs f p (.str NA) = .str ("v" ++ cap) := by
    simp [probeVal, hopen, hm]
  rw [lookup_finalResults fs k f p hmem, hv]
  simp [vstr_truthy]

/-- The run in which only `featureCounts.version` exists, with the claim's
concrete content. -/
def fsFCMatched : String → Option String := fun f =>
  if f = "featureCounts.version" then some "featureCounts v2.0.1 ..." else none

theorem matched_label_value_witness :
    List.lookup "FeatureCounts" (finalResults fsFCMatched)
      = some (Value.str "v2.0.1") := by
  have h := matched_label_value fsFCMatched "FeatureCounts"
    "featureCounts.version" ⟨"featureCounts v"⟩ (by decide)
    "featureCounts v2.0.1 ..." "2.0.1" rfl (by decide)
  simpa using h

/-- C4: the final registry's label order is the declared source order with
the absent-file labels removed; it depends only on which files open, never
on file contents or matched values. -/
theorem registry_order_declared (fs : String → Option String) :
    (finalResults fs).map (fun q => q.1) =
      (regexes.filter (fun e => (fs e.2.1).isSome)).map (fun e => e.1) := by
  unfold finalResults
  rw [collectAll_eq]
  rcases h1 : fs "pipeline.version" with _ | t1 <;>
  rcases h2 : fs "nextflow.version" with _ | t2 <;>
  rcases h3 : fs "stringtie.version" with _ | t3 <;>
  rcases h4 : fs "featureCounts.version" with _ | t4 <;>
    simp [regexes, List.filter_cons, probeVal_truthy_iff, h1, h2, h3, h4]

theorem probeStepTry_ok (fs : String → Option String)
    (m : List (String × Value)) (e : String × String × Pattern) :
    probeStepTry fs m e = .ok (probeStep fs m e) := by
  unfold probeStepTry probeStep openRead
  cases fs e.2.1 with
  | none => rfl
  | some t => rfl

/-- C6: the collection loop never lets a per-file error escape: with `open`
raising `IOError` on an unopenable file and the loop catching exactly that
exception, every run returns normally, producing the registry of the total
model. -/
theorem collection_never_raises (fs : String → Option String) :
    collectTry fs = Except.ok (collectAll fs) := by
  unfold collectTry collectAll
  simp only [regexes, List.foldlM, List.foldl, probeStepTry_ok]
  rfl

/-- C9: probing the source file of one label leaves the entry of every other
label unchanged, whatever the probe's outcome. -/
theorem probe_frame (fs : String → Option String) (m : List (String × Value))
    (k f : String) (p : Pattern) (k' : String) (hne : k' ≠ k) :
    List.lookup k' (probeStep fs m (k, f, p)) = List.lookup k' m := by
  show List.lookup k' (match fs f with
    | none => setKey m k Value.falseMark
    | some text =>
      match p.search text with
      | some cap => setKey m k (Value.str ("v" ++ cap))
      | none => m) = List.lookup k' m
  cases fs f with
  | none => exact lookup_setKey_ne m k k' _ hne
  | some t =>
    show List.lookup k' (match p.search t with
      | some cap => setKey m k (Value.str ("v" ++ cap))
      | none => m) = List.lookup k' m
    cases p.search t with
    | some cap => exact lookup_setKey_ne m k k' _ hne
    | none => rfl

theorem probe_frame_witness :
    List.lookup "Nextflow" (probeStep fsEmpty initResults
      ("StringTie2", "stringtie.version", ⟨""⟩))
      = List.lookup "Nextflow" initResults :=
  probe_frame fsEmpty initResults "StringTie2" "stringtie.version" ⟨""⟩
    "Nextflow" (by decide)

-- Values surviving in the registry contain no tab in their rendering.

theorem probeVal_cases (fs : String → Option String) (f : String)
    (p : Pattern) (old : Value) :
    probeVal fs f p old = .falseMark ∨ probeVal fs f p old = old ∨
    ∃ t cap, fs f = some t ∧ p.search t = some cap ∧
      probeVal fs f p old = .str ("v" ++ cap) := by
  rcases h : fs f with _ | t
  · left
    simp [probeVal, h]
  · rcases hm : p.search t with _ | cap
    · right; left
      simp [probeVal, h, hm]
    · right; right
      exact ⟨t, cap, rfl, hm, by simp [probeVal, h, hm]⟩

theorem finalResults_value_no_tab (fs : String → Option String)
    (q : String × Value) (hq : q ∈ finalResults fs) :
    (q.2.render).data.count '\t' = 0 := by
  obtain ⟨-, hcases⟩ := mem_finalResults fs q hq
  have main : ∀ (f : String) (p : Pattern),
      ((probeVal fs f p (.str NA)).render).data.count '\t' = 0 := by
    intro f p
    rcases probeVal_cases fs f p (.str NA) with h | h | ⟨t, cap, -, hm, h⟩ <;>
      rw [h]
    · decide
    · decide
    · show (("v" ++ cap) : String).data.count '\t' = 0
      rw [String.data_append, List.count_append]
      have h0 : cap.data.count '\t' = 0 := List.count_eq_zero.mpr (fun hc => by
        have := search_no_space p t cap hm '\t' hc
        simp [isSpaceChar] at this)
      have h1 : ("v" : String).data.count '\t' = 0 := by decide
      rw [h0, h1]
  rcases hcases with rfl | rfl | rfl | rfl <;> exact main _ _

/-- The scenario run in which all four declared files are present and match
their patterns. -/
def fsAll : String → Option String := fun f =>
  if f = "pipeline.version" then some "1.0dev"
  else if f = "nextflow.version" then some "21.04.0.5552"
  else if f = "stringtie.version" then some "2.1.7"
  else if f = "featureCounts.version" then some "featureCounts v2.0.1 ..."
  else none

/-- C5: the csv artifact is exactly one `label<TAB>value<NEWLINE>` row per
surviving registry entry, in registry order, each row with exactly one tab
(no extra columns) and no header; in the all-present-and-matching scenario it
has exactly 4 rows in declared order. -/
theorem csv_structure (fs : String → Option String) :
    csvFileContent fs =
      strConcat ((finalResults fs).map (fun q => csvRow q.1 q.2.render)) ∧
    csvLines fs =
      (finalResults fs).map (fun q => q.1 ++ "\t" ++ q.2.render) ∧
    (csvLines fs).all (fun line => line.data.count '\t' == 1) = true ∧
    (csvLines fsAll).length = 4 ∧
    csvFileContent fsAll =
      "nf-core/nanornabam\tv1.0dev\nNextflow\tv21.04.0.5552\nStringTie2\tv2.1.7\nFeatureCounts\tv2.0.1\n" := by
  refine ⟨?_, rfl, ?_, by decide, by decide⟩
  · have h := foldl_append_eq_strConcat (fun q => csvRow q.1 q.2.render)
      (finalResults fs) ""
    unfold csvFileContent
    rw [h]
    simp
  · simp only [List.all_eq_true]
    intro line hl
    simp only [csvLines, List.mem_map] at hl
    obtain ⟨q, hq, rfl⟩ := hl
    have h1 : q.1.data.count '\t' = 0 :=
      List.count_eq_zero.mpr (finalResults_label_chars fs q hq).1
    have h2 := finalResults_value_no_tab fs q hq
    have h3 : ("\t" : String).data.count '\t' = 1 := by decide
    rw [beq_iff_eq, String.data_append, String.data_append,
      List.count_append, List.count_append, h1, h2, h3]

/-- The report as a function of a registry: literal metadata header, one
definition-list item per entry in order, closing container tag. -/
def reportRender (rs : List (String × Value)) : String :=
  (reportHeader ++ "\n")
    ++ strConcat (rs.map (fun q => reportItem q.1 q.2.render ++ "\n"))
    ++ "    </dl>\n"

/-- C7: the printed report is the fixed literal header followed by one
`<dt>label</dt><dd>value</dd>` item per surviving entry inside the
definition-list container, in registry order — a deterministic function of
the registry alone. -/
theorem report_structure (fs : String → Option String) :
    stdoutContent fs = reportRender (finalResults fs) := by
  unfold stdoutContent reportRender
  rw [foldl_append_eq_strConcat (fun q => reportItem q.1 q.2.render ++ "\n")
    (finalResults fs) (reportHeader ++ "\n")]

/-- The common (label, rendered value) pair sequence both artifacts render. -/
def entryPairs (fs : String → Option String) : List (String × String) :=
  (finalResults fs).map (fun q => (q.1, q.2.render))

/-- C8: the report items and the csv rows are renderings of one and the same
(label, value) pair sequence: the two artifacts agree on surviving entries,
their values and their order. -/
theorem renderings_agree (fs : String → Option String) :
    reportItems fs = (entryPairs fs).map (fun r => reportItem r.1 r.2) ∧
    csvLines fs = (entryPairs fs).map (fun r => r.1 ++ "\t" ++ r.2) ∧
    stdoutContent fs = (reportHeader ++ "\n")
      ++ strConcat ((entryPairs fs).map (fun r => reportItem r.1 r.2 ++ "\n"))
      ++ "    </dl>\n" ∧
    csvFileContent fs =
      strConcat ((entryPairs fs).map (fun r => csvRow r.1 r.2)) := by
  refine ⟨?_, ?_, ?_, ?_⟩
  · simp [reportItems, entryPairs, List.map_map]
  · simp [csvLines, entryPairs, List.map_map]
  · unfold stdoutContent
    rw [foldl_append_eq_strConcat (fun q => reportItem q.1 q.2.render ++ "\n")
      (finalResults fs) (reportHeader ++ "\n")]
    simp [entryPairs, List.map_map]
    rfl
  · unfold csvFileContent
    rw [foldl_append_eq_strConcat (fun q => csvRow q.1 q.2.render)
      (finalResults fs) ""]
    simp [entryPairs, List.map_map]
    rfl

/-- C10 counterexample: the sentinel is not the raw source spelling with a
backslash before the quote — the Python escape `\"` denotes just `"`. -/
theorem sentinel_no_backslash :
    NA ≠ "<span style=\"color:#999999;\\\">N/A</span>" := by decide

/-- C10 (amended): the sentinel is the literal HTML string
`<span style="color:#999999;">N/A</span>` — without a backslash, since the
source's `\"` is an escaped quote — and a PatternUnmatched entry carries it
verbatim into the registry, the csv rows and the report items. -/
theorem sentinel_literal_value (fs : String → Option String) (k f : String)
    (p : Pattern) (hmem : (k, f, p) ∈ regexes) (t : String)
    (hopen : fs f = some t) (hnm : p.search t = none) :
    NA = "<span style=\"color:#999999;\">N/A</span>" ∧
    List.lookup k (finalResults fs) = some (Value.str NA) ∧
    (k ++ "\t" ++ NA) ∈ csvLines fs ∧
    reportItem k NA ∈ reportItems fs := by
  have hv : probeVal fs f p (.str NA) = .str NA := by
    simp [probeVal, hopen, hnm]
  have hmem' := mem_finalResults_of_truthy fs k f p hmem
    (by rw [hv]; exact NA_truthy)
  rw [hv] at hmem'
  refine ⟨rfl, ?_, ?_, ?_⟩
  · rw [lookup_finalResults fs k f p hmem, hv]
    simp [NA_truthy]
  · simp only [csvLines, List.mem_map]
    exact ⟨(k, Value.str NA), hmem', rfl⟩
  · simp only [reportItems, List.mem_map]
    exact ⟨(k, Value.str NA), hmem', rfl⟩

theorem sentinel_literal_value_witness :
    ("FeatureCounts" ++ "\t" ++ NA) ∈ csvLines fsFCUnmatched :=
  (sentinel_literal_value fsFCUnmatched "FeatureCounts"
    "featureCounts.version" ⟨"featureCounts v"⟩ (by decide)
    "no version here" rfl (by decide)).2.2.1
